import Mathlib

/-!
Verification of the reliability core of `stahir80td/ai-skills`
(`core/python/core/reliability.py` and `core/python/core/logger.py`),
shallowly embedded in Lean 4.

Modelling conventions:
* Python exceptions are values of `PyExc` (class name plus message);
  fallible operations are `Except PyExc α`.
* Wall-clock instants (`datetime.now()`) and durations (`timedelta`)
  are rationals; the breaker only ever subtracts and compares them.
* Prometheus counters/gauges are pure observability and are omitted,
  except where a claim is about them (the state-gauge publication that
  accompanies `_transition_to_open` is counted explicitly in the
  interleaving model at the end of the file).
-/

namespace AiSkills

/-- A Python exception value: its class name and its message.
`Exception(f"...")` in the source becomes `⟨"Exception", "..."⟩`. -/
structure PyExc where
  excType : String
  msg : String
deriving DecidableEq, Repr

/-- States `CircuitState` from `reliability.py`: CLOSED, HALF_OPEN, OPEN. -/
inductive CircuitState where
  | CLOSED
  | HALF_OPEN
  | OPEN
deriving DecidableEq, Repr

/-- The `CircuitBreaker` object: construction-time configuration
(`name`, `max_failures`, `timeout`, `half_open_max_requests`, `enabled`)
plus the mutable fields (`state`, `failures`, `last_fail_time`,
`half_open_attempts`), as set up in `CircuitBreaker.__init__`. -/
structure Breaker where
  name : String
  max_failures : Nat
  timeout : ℚ
  half_open_max_requests : Nat
  enabled : Bool
  state : CircuitState
  failures : Nat
  last_fail_time : Option ℚ
  half_open_attempts : Nat
deriving DecidableEq, Repr

namespace Breaker

/-- Constructor `CircuitBreaker.__init__`: state starts CLOSED, counters at 0,
`last_fail_time` unset. -/
def init (name : String) (max_failures : Nat) (timeout : ℚ)
    (half_open_requests : Nat) (enabled : Bool) : Breaker :=
  { name := name
    max_failures := max_failures
    timeout := timeout
    half_open_max_requests := half_open_requests
    enabled := enabled
    state := CircuitState.CLOSED
    failures := 0
    last_fail_time := none
    half_open_attempts := 0 }

/-- Transition `CircuitBreaker._transition_to_open`. -/
def transition_to_open (b : Breaker) : Breaker :=
  { b with state := CircuitState.OPEN }

/-- Transition `CircuitBreaker._transition_to_half_open`. -/
def transition_to_half_open (b : Breaker) : Breaker :=
  { b with state := CircuitState.HALF_OPEN, half_open_attempts := 0 }

/-- Transition `CircuitBreaker._transition_to_closed`. -/
def transition_to_closed (b : Breaker) : Breaker :=
  { b with state := CircuitState.CLOSED, failures := 0, half_open_attempts := 0 }

/-- Handler `CircuitBreaker._on_success`. -/
def on_success (b : Breaker) : Breaker :=
  if b.state = CircuitState.HALF_OPEN then
    let b1 := { b with half_open_attempts := b.half_open_attempts + 1 }
    if b1.half_open_attempts ≥ b1.half_open_max_requests then
      b1.transition_to_closed
    else b1
  else if b.state = CircuitState.CLOSED then
    { b with failures := 0 }
  else b

/-- Handler `CircuitBreaker._on_failure` (`now` is `datetime.now()`). -/
def on_failure (b : Breaker) (now : ℚ) : Breaker :=
  let b1 := { b with failures := b.failures + 1, last_fail_time := some now }
  if b1.state = CircuitState.HALF_OPEN then
    b1.transition_to_open
  else if b1.state = CircuitState.CLOSED ∧ b1.failures ≥ b1.max_failures then
    b1.transition_to_open
  else b1

/-- The "breaker open" rejection raised by `call`:
`raise Exception(f"Circuit breaker '{self.name}' is OPEN")`. -/
def rejectExc (name : String) : PyExc :=
  ⟨"Exception", "Circuit breaker '" ++ name ++ "' is OPEN"⟩

/-- The result of one `call`: the returned value or raised exception,
the breaker afterwards, and how many times the wrapped operation ran. -/
structure CallResult (α : Type) where
  outcome : Except PyExc α
  breaker : Breaker
  invocations : Nat
deriving Repr

/-- The `try`/`except` tail of `CircuitBreaker.call`: invoke the wrapped
operation once, then `_on_success` / `_on_failure` (which re-raises the
original exception unchanged). -/
def execCall (b : Breaker) (now : ℚ) (op : Except PyExc α) : CallResult α :=
  match op with
  | Except.ok v => ⟨Except.ok v, b.on_success, 1⟩
  | Except.error e => ⟨Except.error e, b.on_failure now, 1⟩

/-- Method `CircuitBreaker.call(func)` at wall-clock instant `now`, with the
wrapped operation's one-shot outcome `op`:
bypass when disabled; when OPEN either move to HALF_OPEN (strictly more
than `timeout` elapsed since a recorded `last_fail_time`) or reject
without invoking; otherwise run the operation through `execCall`. -/
def call (b : Breaker) (now : ℚ) (op : Except PyExc α) : CallResult α :=
  if b.enabled = false then
    ⟨op, b, 1⟩
  else if b.state = CircuitState.OPEN then
    match b.last_fail_time with
    | some t =>
      if now - t > b.timeout then
        execCall b.transition_to_half_open now op
      else
        ⟨Except.error (rejectExc b.name), b, 0⟩
    | none => ⟨Except.error (rejectExc b.name), b, 0⟩
  else
    execCall b now op

/-- Accessor `CircuitBreaker.get_state`. -/
def get_state (b : Breaker) : CircuitState := b.state

/-- Run a sequence of calls (each an instant paired with the operation's
outcome for that call), returning the final breaker and the total number
of wrapped-operation invocations. -/
def runCalls (b : Breaker) (calls : List (ℚ × Except PyExc α)) : Breaker × Nat :=
  calls.foldl
    (fun acc c =>
      let r := call acc.1 c.1 c.2
      (r.breaker, acc.2 + r.invocations))
    (b, 0)

/-- The breaker after a sequence of calls whose operations all fail with
`e`, made at the instants `ts`. -/
def applyFails (b : Breaker) (ts : List ℚ) (e : PyExc) : Breaker :=
  ts.foldl (fun acc t => (call acc t (Except.error e : Except PyExc Unit)).breaker) b

/-- The breaker after a sequence of successful calls at the instants `ts`. -/
def applySuccs (b : Breaker) (ts : List ℚ) : Breaker :=
  ts.foldl (fun acc t => (call acc t (Except.ok () : Except PyExc Unit)).breaker) b

end Breaker

/-! ### Retry policy

Source `RetryPolicy.with_exponential_backoff(max_attempts, initial_delay,
max_delay, multiplier)` returns
`tenacity.retry(stop=stop_after_attempt(max_attempts),
wait=wait_exponential(multiplier=multiplier, min=initial_delay,
max=max_delay), reraise=True)` — the pinned dependency is
`tenacity>=8.2.3`, whose loop and wait strategy are embedded here:
every call starts with attempt 1; after attempt `k` fails, the loop
stops (re-raising that failure unchanged, `reraise=True`) when
`k >= max_attempts`, and otherwise sleeps
`wait_exponential(multiplier, min, max)` evaluated at attempt number `k`,
namely `max(max(0, min), min(multiplier * 2^(k-1), max))`
(`exp_base` keeps its default 2), before attempt `k+1`. -/

/-- Wait strategy `tenacity.wait_exponential(multiplier=multiplier,
min=wmin, max=wmax)` at `attempt_number = k` (with the default
`exp_base = 2`): `max(max(0, wmin), min(multiplier * 2^(k-1), wmax))`. -/
def wait_exponential_delay (multiplier wmin wmax : ℚ) (k : Nat) : ℚ :=
  max (max 0 wmin) (min (multiplier * 2 ^ (k - 1)) wmax)

/-- Delay scheduled by `RetryPolicy.with_exponential_backoff` between
attempt `k` and attempt `k + 1`: the source passes `min=initial_delay`
and `max=max_delay` to `wait_exponential`. -/
def with_exponential_backoff_wait (initial_delay max_delay multiplier : ℚ)
    (k : Nat) : ℚ :=
  wait_exponential_delay multiplier initial_delay max_delay k

/-- Stated from the spec's words, for comparison with the source-derived
`with_exponential_backoff_wait`: the spec's formula
`delay = min(initial_delay * multiplier^(attempt-1), max_delay)`. -/
def specBackoffDelay (initial_delay max_delay multiplier : ℚ) (k : Nat) : ℚ :=
  min (initial_delay * multiplier ^ (k - 1)) max_delay

/-- Outcome of a retried call: the final result or re-raised failure,
the total number of invocations of the wrapped operation, and the
sleeps performed between attempts, in order. -/
structure RetryResult (α : Type) where
  outcome : Except PyExc α
  attempts : Nat
  delays : List ℚ
deriving Repr

/-- Loop body of `tenacity.retry(stop=stop_after_attempt(maxAttempts),
wait=wait, reraise=True)`: run attempt `k` (the wrapped operation may
behave differently per attempt, hence `op : Nat → _`); return on
success; on failure stop once `k ≥ maxAttempts` (re-raising the last
failure unchanged), else sleep `wait k` and recurse. The `fuel`
argument makes the recursion structural; `retryCall` supplies enough
fuel that the `fuel = 0` branch is never taken. -/
def retryAux (maxAttempts : Nat) (wait : Nat → ℚ) (op : Nat → Except PyExc α) :
    Nat → Nat → RetryResult α
  | fuel, k =>
    match op k with
    | Except.ok v => ⟨Except.ok v, k, []⟩
    | Except.error e =>
      if k ≥ maxAttempts then ⟨Except.error e, k, []⟩
      else
        match fuel with
        | 0 => ⟨Except.error e, k, []⟩
        | fuel' + 1 =>
          let r := retryAux maxAttempts wait op fuel' (k + 1)
          ⟨r.outcome, r.attempts, wait k :: r.delays⟩

/-- Run a `tenacity.retry(stop=stop_after_attempt(maxAttempts), wait=wait,
reraise=True)`-wrapped operation: attempts are numbered from 1, and the
first attempt always runs (tenacity consults `stop` only after an
attempt). -/
def retryCall (maxAttempts : Nat) (wait : Nat → ℚ) (op : Nat → Except PyExc α) :
    RetryResult α :=
  retryAux maxAttempts wait op maxAttempts 1

/-- Run an operation wrapped by
`RetryPolicy.with_exponential_backoff(max_attempts, initial_delay,
max_delay, multiplier)`. -/
def with_exponential_backoff (max_attempts : Nat)
    (initial_delay max_delay multiplier : ℚ)
    (op : Nat → Except PyExc α) : RetryResult α :=
  retryCall max_attempts
    (with_exponential_backoff_wait initial_delay max_delay multiplier) op

/-! ### Correlation logger

Source `core/python/core/logger.py`. A structlog bound logger is
modelled by its bound context: the ordered list of key/value bindings
accumulated by `bind`; `bind` appends, and on lookup the latest binding
of a key wins (Python dict-update semantics). Binding returns a new
bound logger — the original is untouched — which the pure model renders
as list append. -/

/-- Bound context of a structlog bound logger: ordered key/value
bindings, later bindings of a key overriding earlier ones. -/
abbrev LogCtx := List (String × String)

/-- Dict-style lookup over accumulated bindings: the last binding of `k`
wins; `none` if `k` was never bound. -/
def lookupField (ctx : LogCtx) (k : String) : Option String :=
  ctx.foldl (fun acc p => if p.1 = k then some p.2 else acc) none

/-- Class `ContextLogger`: its `correlation_id` and `component`
attributes, and its bound structlog logger `self.logger`. -/
structure ContextLogger where
  correlation_id : String
  component : String
  logger : LogCtx
deriving Repr

/-- Constructor `ContextLogger.__init__(base_logger, correlation_id,
component)`: bind `correlation_id` and then `component` onto the base
logger, each only when nonempty (Python string truthiness). -/
def ContextLogger.init (base : LogCtx) (correlation_id component : String) :
    ContextLogger :=
  let bind_data : LogCtx :=
    (if correlation_id ≠ "" then [("correlation_id", correlation_id)] else []) ++
    (if component ≠ "" then [("component", component)] else [])
  ⟨correlation_id, component, base ++ bind_data⟩

/-- Method `ContextLogger.with_component(component)`: derive a new
`ContextLogger` from `self.logger` and `self.correlation_id`. -/
def ContextLogger.with_component (l : ContextLogger) (component : String) :
    ContextLogger :=
  ContextLogger.init l.logger l.correlation_id component

/-- Method `Logger.with_correlation(correlation_id, component)`: derive a
`ContextLogger` from the `Logger`'s bound context `base`. -/
def Logger.with_correlation (base : LogCtx) (correlation_id component : String) :
    ContextLogger :=
  ContextLogger.init base correlation_id component

/-- Fields of a record emitted by the `ContextLogger` level methods
(`debug` … `critical`) with per-call key/values `kw`: the bound context
merged with the per-call fields (per-call fields win on conflict). -/
def emitRecord (l : ContextLogger) (kw : LogCtx) : LogCtx :=
  l.logger ++ kw

/-! ### Interleaving model of `_on_failure` for concurrent callers

Source `CircuitBreaker` contains no lock, so two threads can interleave
the statements of `_on_failure` (lines 161–169 plus the
`_transition_to_open` body). Each thread failing a call executes, in
order: (0) `self.failures += 1; self.last_fail_time = now`,
(1) evaluate the branch condition
`state == CLOSED and failures >= max_failures`, (2) if the evaluated
condition held, run `_transition_to_open` (assign `state = OPEN` and
publish the state gauge). Steps are atomic here — coarser than Python
bytecodes, so any interleaving exhibited below is also possible in the
source. `fires` counts executions of `_transition_to_open`. -/

/-- Shared breaker state visible to racing threads, plus the count of
`_transition_to_open` executions (each publishes the state gauge). -/
structure RaceState where
  failures : Nat
  state : CircuitState
  fires : Nat
deriving DecidableEq, Repr

/-- Per-thread control state: program counter over the three statements
of `_on_failure`, and the branch decision once evaluated. -/
structure ThreadState where
  pc : Nat
  decision : Bool
deriving DecidableEq, Repr

/-- One atomic statement of `_on_failure` executed by a thread (CLOSED
path; `maxFailures` is the breaker's `max_failures`). -/
def stepThread (maxFailures : Nat) (s : RaceState) (t : ThreadState) :
    RaceState × ThreadState :=
  match t.pc with
  | 0 => ({ s with failures := s.failures + 1 }, { t with pc := 1 })
  | 1 => (s, { pc := 2,
               decision := decide (s.state = CircuitState.CLOSED ∧
                                   s.failures ≥ maxFailures) })
  | 2 => (if t.decision then
            { s with state := CircuitState.OPEN, fires := s.fires + 1 }
          else s,
          { t with pc := 3 })
  | _ => (s, t)

/-- Run two threads under a schedule: `true` steps thread 1, `false`
steps thread 2. -/
def runSched (maxFailures : Nat) :
    List Bool → RaceState × ThreadState × ThreadState →
    RaceState × ThreadState × ThreadState
  | [], cfg => cfg
  | c :: rest, (s, t1, t2) =>
    if c then
      let r := stepThread maxFailures s t1
      runSched maxFailures rest (r.1, r.2, t2)
    else
      let r := stepThread maxFailures s t2
      runSched maxFailures rest (r.1, t1, r.2)

/-- Initial shared state for the race scenario: a CLOSED breaker with
`failures = 0`, no transition fired yet. -/
def raceInit : RaceState :=
  { failures := 0, state := CircuitState.CLOSED, fires := 0 }

/-- A thread about to enter `_on_failure`. -/
def threadInit : ThreadState :=
  { pc := 0, decision := false }

/-! ## Theorems -/

open Breaker

/-- Helper: `execCall` invokes the wrapped operation exactly once. -/
theorem execCall_invocations {α : Type} (b : Breaker) (now : ℚ)
    (op : Except PyExc α) : (execCall b now op).invocations = 1 := by
  cases op <;> rfl

/-- Helper: a failing call on an enabled CLOSED breaker increments
`failures`, records `last_fail_time`, re-raises the failure, and trips
to OPEN exactly when the incremented count reaches `max_failures`. -/
theorem call_closed_fail {α : Type} (b : Breaker) (t : ℚ) (e : PyExc)
    (hen : b.enabled = true) (hst : b.state = CircuitState.CLOSED) :
    call b t (Except.error e : Except PyExc α) =
      ⟨Except.error e,
        if b.failures + 1 ≥ b.max_failures then
          { b with failures := b.failures + 1, last_fail_time := some t,
                   state := CircuitState.OPEN }
        else
          { b with failures := b.failures + 1, last_fail_time := some t },
        1⟩ := by
  simp only [call, execCall, on_failure, transition_to_open, hen, hst]
  split <;> simp_all

/-- Helper: below-threshold failing call on an enabled CLOSED breaker. -/
theorem call_closed_fail_lt {α : Type} (b : Breaker) (t : ℚ) (e : PyExc)
    (hen : b.enabled = true) (hst : b.state = CircuitState.CLOSED)
    (hlt : b.failures + 1 < b.max_failures) :
    (call b t (Except.error e : Except PyExc α)).breaker =
      { b with failures := b.failures + 1, last_fail_time := some t } := by
  rw [call_closed_fail b t e hen hst]
  simp [Nat.not_le.mpr hlt]

/-- Helper: threshold-reaching failing call on an enabled CLOSED breaker. -/
theorem call_closed_fail_ge {α : Type} (b : Breaker) (t : ℚ) (e : PyExc)
    (hen : b.enabled = true) (hst : b.state = CircuitState.CLOSED)
    (hge : b.max_failures ≤ b.failures + 1) :
    (call b t (Except.error e : Except PyExc α)).breaker =
      { b with failures := b.failures + 1, last_fail_time := some t,
               state := CircuitState.OPEN } := by
  rw [call_closed_fail b t e hen hst]
  simp [hge]

/-- Helper: a successful call on an enabled CLOSED breaker resets
`failures` to 0 and changes nothing else. -/
theorem call_closed_success {α : Type} (b : Breaker) (t : ℚ) (v : α)
    (hen : b.enabled = true) (hst : b.state = CircuitState.CLOSED) :
    call b t (Except.ok v : Except PyExc α) =
      ⟨Except.ok v, { b with failures := 0 }, 1⟩ := by
  simp [call, execCall, on_success, hen, hst]

/-- Helper: `applyFails` distributes over list append. -/
theorem applyFails_append (b : Breaker) (l1 l2 : List ℚ) (e : PyExc) :
    applyFails b (l1 ++ l2) e = applyFails (applyFails b l1 e) l2 e := by
  simp [applyFails, List.foldl_append]

/-- Helper: as long as the accumulated failures stay strictly below
`max_failures`, an enabled CLOSED breaker stays CLOSED and counts each
consecutive failure. -/
theorem applyFails_closed_lt (e : PyExc) :
    ∀ (ts : List ℚ) (b : Breaker), b.enabled = true →
      b.state = CircuitState.CLOSED →
      b.failures + ts.length < b.max_failures →
      (applyFails b ts e).state = CircuitState.CLOSED ∧
      (applyFails b ts e).failures = b.failures + ts.length ∧
      (applyFails b ts e).enabled = true ∧
      (applyFails b ts e).max_failures = b.max_failures := by
  intro ts
  induction ts with
  | nil =>
    intro b hen hst _
    simp [applyFails, hen, hst]
  | cons t ts ih =>
    intro b hen hst h
    have hlen : (t :: ts).length = ts.length + 1 := List.length_cons t ts
    have hlt : b.failures + 1 < b.max_failures := by
      rw [hlen] at h; omega
    have hstep : applyFails b (t :: ts) e =
        applyFails { b with failures := b.failures + 1,
                            last_fail_time := some t } ts e := by
      show applyFails (call b t (Except.error e : Except PyExc Unit)).breaker ts e
            = _
      rw [call_closed_fail_lt b t e hen hst hlt]
    rw [hstep]
    have := ih { b with failures := b.failures + 1, last_fail_time := some t }
      hen hst (by simp only [hlen] at h ⊢; simpa using by omega)
    simpa [hlen, Nat.add_right_comm] using this

/-- C1: starting from an enabled CLOSED breaker with `failure_count = 0`
and `max_failures = N > 0`, any sequence of fewer than `N` failing calls
leaves the state CLOSED with `failure_count` equal to the number of
failures; a sequence of exactly `N` failing calls ends OPEN (the trip
happens exactly at the Nth consecutive failure); and a successful call
on any enabled CLOSED breaker resets `failure_count` to 0 and changes
nothing else, restarting the consecutive-failure count. -/
theorem C1_threshold_trip (b : Breaker) (N : Nat) (e : PyExc)
    (hen : b.enabled = true) (hst : b.state = CircuitState.CLOSED)
    (hf : b.failures = 0) (hmax : b.max_failures = N) (hN : 0 < N) :
    (∀ ts : List ℚ, ts.length < N →
        (applyFails b ts e).state = CircuitState.CLOSED ∧
        (applyFails b ts e).failures = ts.length) ∧
    (∀ ts : List ℚ, ts.length = N →
        (applyFails b ts e).state = CircuitState.OPEN) ∧
    (∀ (b' : Breaker) (t : ℚ), b'.enabled = true →
        b'.state = CircuitState.CLOSED →
        call b' t (Except.ok () : Except PyExc Unit) =
          ⟨Except.ok (), { b' with failures := 0 }, 1⟩) := by
  refine ⟨?_, ?_, ?_⟩
  · intro ts hts
    have := applyFails_closed_lt e ts b hen hst (by omega)
    exact ⟨this.1, by omega⟩
  · intro ts hts
    have hne : ts ≠ [] := by
      intro hnil; rw [hnil] at hts; simp at hts; omega
    have hsplit : ts.dropLast ++ [ts.getLast hne] = ts :=
      List.dropLast_append_getLast hne
    have hlen : ts.dropLast.length = N - 1 := by
      rw [List.length_dropLast, hts]
    have hpre := applyFails_closed_lt e ts.dropLast b hen hst (by omega)
    rw [← hsplit, applyFails_append]
    have hstep := call_closed_fail_ge (α := Unit)
      (applyFails b ts.dropLast e) (ts.getLast hne) e hpre.2.2.1 hpre.1
      (by rw [hpre.2.2.2, hpre.2.1]; omega)
    show (call (applyFails b ts.dropLast e) (ts.getLast hne)
        (Except.error e : Except PyExc Unit)).breaker.state = CircuitState.OPEN
    rw [hstep]
  · intro b' t hen' hst'
    exact call_closed_success b' t () hen' hst'

/-- Witness for C1 at a concrete breaker (`max_failures = 2`): the first
failure leaves it CLOSED, the second trips it to OPEN. -/
theorem C1_threshold_trip_witness :
    (Breaker.init "db" 2 60 3 true).enabled = true ∧
    (applyFails (Breaker.init "db" 2 60 3 true) [0]
        ⟨"ValueError", "boom"⟩).state = CircuitState.CLOSED ∧
    (applyFails (Breaker.init "db" 2 60 3 true) [0, 1]
        ⟨"ValueError", "boom"⟩).state = CircuitState.OPEN := by
  refine ⟨rfl, ?_, ?_⟩
  · exact ((C1_threshold_trip (Breaker.init "db" 2 60 3 true) 2
      ⟨"ValueError", "boom"⟩ rfl rfl rfl rfl (by decide)).1 [0]
      (by decide)).1
  · exact (C1_threshold_trip (Breaker.init "db" 2 60 3 true) 2
      ⟨"ValueError", "boom"⟩ rfl rfl rfl rfl (by decide)).2.1 [0, 1] rfl

/-- Helper: a call on an enabled OPEN breaker whose timeout has not
strictly elapsed is rejected: the "breaker open" error is raised, the
operation is not invoked, and the breaker is returned unchanged. -/
theorem call_open_reject {α : Type} (b : Breaker) (t now : ℚ)
    (op : Except PyExc α)
    (hen : b.enabled = true) (hst : b.state = CircuitState.OPEN)
    (hlf : b.last_fail_time = some t) (hel : now - t ≤ b.timeout) :
    call b now op = ⟨Except.error (rejectExc b.name), b, 0⟩ := by
  simp [call, hen, hst, hlf, not_lt.mpr hel]

/-- C2: while an enabled breaker is OPEN and the elapsed time since
`last_failure_time` does not exceed `timeout`, every call fails with the
"breaker open" error whose message names the breaker, the wrapped
operation is never invoked (zero invocations across any number of such
rejected calls), and every breaker field — state, counters,
`last_failure_time` — is left unchanged. -/
theorem C2_open_fast_rejection {α : Type} (b : Breaker) (t now : ℚ)
    (op : Except PyExc α)
    (hen : b.enabled = true) (hst : b.state = CircuitState.OPEN)
    (hlf : b.last_fail_time = some t) (hel : now - t ≤ b.timeout) :
    call b now op = ⟨Except.error (rejectExc b.name), b, 0⟩ ∧
    (rejectExc b.name).msg = "Circuit breaker '" ++ b.name ++ "' is OPEN" ∧
    ∀ calls : List (ℚ × Except PyExc α),
      (∀ p ∈ calls, p.1 - t ≤ b.timeout) →
      runCalls b calls = (b, 0) := by
  refine ⟨call_open_reject b t now op hen hst hlf hel, rfl, ?_⟩
  have key : ∀ (calls : List (ℚ × Except PyExc α)) (n : Nat),
      (∀ p ∈ calls, p.1 - t ≤ b.timeout) →
      calls.foldl
        (fun acc c =>
          let r := call acc.1 c.1 c.2
          (r.breaker, acc.2 + r.invocations)) (b, n) = (b, n) := by
    intro calls
    induction calls with
    | nil => intro n _; rfl
    | cons c cs ih =>
      intro n hc
      have h1 : call b c.1 c.2 = ⟨Except.error (rejectExc b.name), b, 0⟩ :=
        call_open_reject b t c.1 c.2 hen hst hlf (hc c (List.mem_cons_self c cs))
      simp only [List.foldl_cons, h1]
      exact ih n (fun p hp => hc p (List.mem_cons_of_mem _ hp))
  intro calls hc
  exact key calls 0 hc

/-- Witness for C2: a breaker tripped at instant 0 with `timeout = 60`
rejects a call at instant 30 without invoking it and without changing
state. -/
theorem C2_open_fast_rejection_witness :
    ((applyFails (Breaker.init "db" 1 60 3 true) [0]
        ⟨"ValueError", "boom"⟩).state = CircuitState.OPEN) ∧
    call (applyFails (Breaker.init "db" 1 60 3 true) [0] ⟨"ValueError", "boom"⟩)
        30 (Except.ok () : Except PyExc Unit) =
      ⟨Except.error (rejectExc "db"),
       applyFails (Breaker.init "db" 1 60 3 true) [0] ⟨"ValueError", "boom"⟩,
       0⟩ := by
  have hb : applyFails (Breaker.init "db" 1 60 3 true) [0]
      ⟨"ValueError", "boom"⟩ =
      ⟨"db", 1, 60, 3, true, CircuitState.OPEN, 1, some 0, 0⟩ := by rfl
  refine ⟨by rw [hb], ?_⟩
  exact (C2_open_fast_rejection
    (applyFails (Breaker.init "db" 1 60 3 true) [0] ⟨"ValueError", "boom"⟩)
    0 30 (Except.ok ()) (by rw [hb]) (by rw [hb]) (by rw [hb])
    (by rw [hb]; norm_num)).1

/-- C3: the first call on an enabled OPEN breaker made strictly more
than `timeout` after the recorded `last_failure_time` first transitions
the breaker to HALF_OPEN — resetting `half_open_success_count` to 0 —
and then invokes the wrapped operation exactly once. -/
theorem C3_recovery_probe {α : Type} (b : Breaker) (t now : ℚ)
    (op : Except PyExc α)
    (hen : b.enabled = true) (hst : b.state = CircuitState.OPEN)
    (hlf : b.last_fail_time = some t) (hel : now - t > b.timeout) :
    call b now op = execCall b.transition_to_half_open now op ∧
    b.transition_to_half_open.state = CircuitState.HALF_OPEN ∧
    b.transition_to_half_open.half_open_attempts = 0 ∧
    (call b now op).invocations = 1 := by
  have hcall : call b now op = execCall b.transition_to_half_open now op := by
    simp [call, hen, hst, hlf, hel]
  exact ⟨hcall, rfl, rfl,
    by rw [hcall]; exact execCall_invocations _ now op⟩

/-- Witness for C3: the breaker tripped at instant 0 with `timeout = 60`
probes on a call at instant 100 — it moves to HALF_OPEN and invokes the
operation once. -/
theorem C3_recovery_probe_witness :
    ((applyFails (Breaker.init "db" 1 60 3 true) [0]
        ⟨"ValueError", "boom"⟩).state = CircuitState.OPEN) ∧
    (call (applyFails (Breaker.init "db" 1 60 3 true) [0] ⟨"ValueError", "boom"⟩)
        100 (Except.ok () : Except PyExc Unit)).invocations = 1 := by
  have hb : applyFails (Breaker.init "db" 1 60 3 true) [0]
      ⟨"ValueError", "boom"⟩ =
      ⟨"db", 1, 60, 3, true, CircuitState.OPEN, 1, some 0, 0⟩ := by rfl
  refine ⟨by rw [hb], ?_⟩
  exact (C3_recovery_probe
    (applyFails (Breaker.init "db" 1 60 3 true) [0] ⟨"ValueError", "boom"⟩)
    0 100 (Except.ok ()) (by rw [hb]) (by rw [hb]) (by rw [hb])
    (by rw [hb]; norm_num)).2.2.2

/-- Helper: a successful call on an enabled HALF_OPEN breaker increments
the half-open success counter, and closes the breaker (resetting both
counters) exactly when the incremented counter reaches
`half_open_max_requests`. -/
theorem call_halfopen_success {α : Type} (b : Breaker) (t : ℚ) (v : α)
    (hen : b.enabled = true) (hst : b.state = CircuitState.HALF_OPEN) :
    (call b t (Except.ok v : Except PyExc α)).breaker =
      if b.half_open_attempts + 1 ≥ b.half_open_max_requests then
        { b with state := CircuitState.CLOSED, failures := 0,
                 half_open_attempts := 0 }
      else
        { b with half_open_attempts := b.half_open_attempts + 1 } := by
  simp only [call, execCall, on_success, transition_to_closed, hen, hst]
  split <;> simp_all

/-- Helper: a failing call on an enabled HALF_OPEN breaker immediately
reopens the breaker, whatever the half-open success count. -/
theorem call_halfopen_fail {α : Type} (b : Breaker) (t : ℚ) (e : PyExc)
    (hen : b.enabled = true) (hst : b.state = CircuitState.HALF_OPEN) :
    (call b t (Except.error e : Except PyExc α)).breaker =
      { b with failures := b.failures + 1, last_fail_time := some t,
               state := CircuitState.OPEN } := by
  simp [call, execCall, on_failure, transition_to_open, hen, hst]

/-- Helper: while successes accumulated in HALF_OPEN stay strictly below
`half_open_max_requests`, the breaker stays HALF_OPEN and counts them. -/
theorem applySuccs_halfopen :
    ∀ (ts : List ℚ) (b : Breaker), b.enabled = true →
      b.state = CircuitState.HALF_OPEN →
      b.half_open_attempts + ts.length < b.half_open_max_requests →
      (applySuccs b ts).state = CircuitState.HALF_OPEN ∧
      (applySuccs b ts).half_open_attempts =
        b.half_open_attempts + ts.length ∧
      (applySuccs b ts).enabled = true ∧
      (applySuccs b ts).half_open_max_requests =
        b.half_open_max_requests := by
  intro ts
  induction ts with
  | nil =>
    intro b hen hst _
    simp [applySuccs, hen, hst]
  | cons t ts ih =>
    intro b hen hst h
    have hlen : (t :: ts).length = ts.length + 1 := List.length_cons t ts
    have hlt : ¬ b.half_open_attempts + 1 ≥ b.half_open_max_requests := by
      rw [hlen] at h; omega
    have hstep : applySuccs b (t :: ts) =
        applySuccs { b with half_open_attempts := b.half_open_attempts + 1 }
          ts := by
      show applySuccs (call b t (Except.ok () : Except PyExc Unit)).breaker ts
            = _
      rw [call_halfopen_success b t () hen hst, if_neg hlt]
    rw [hstep]
    have := ih { b with half_open_attempts := b.half_open_attempts + 1 }
      hen hst (by simp only [hlen] at h ⊢; simpa using by omega)
    simpa [hlen, Nat.add_right_comm] using this

/-- Helper: over any single call, whenever an enabled breaker is not
CLOSED beforehand and CLOSED afterwards, its `failure_count` afterwards
is 0 — every entry into CLOSED starts with a fresh failure budget. -/
theorem call_enter_closed_resets {α : Type} (b : Breaker) (now : ℚ)
    (op : Except PyExc α)
    (hpre : b.state ≠ CircuitState.CLOSED)
    (hpost : (call b now op).breaker.state = CircuitState.CLOSED) :
    (call b now op).breaker.failures = 0 := by
  revert hpost
  cases hen : b.enabled <;>
    cases op <;>
    cases hst : b.state <;>
    rcases hlf : b.last_fail_time with _ | t <;>
    simp_all [call, execCall, on_success, on_failure, transition_to_open,
      transition_to_half_open, transition_to_closed] <;>
    split_ifs <;>
    simp_all

/-- C4: from an enabled HALF_OPEN breaker with a fresh success counter
and `half_open_max_requests = M > 0`: `M` consecutive successful calls
close the breaker with `failure_count` reset to 0, while fewer than `M`
leave it HALF_OPEN counting them; a single failing call from HALF_OPEN
reopens the breaker regardless of accumulated successes; the transition
into CLOSED resets the CLOSED-scoped `failure_count` and the transition
into HALF_OPEN resets the HALF_OPEN-scoped success counter; and over
any call by an enabled breaker, entering CLOSED implies a zero
`failure_count`. -/
theorem C4_half_open_window (b : Breaker) (M : Nat)
    (hen : b.enabled = true) (hst : b.state = CircuitState.HALF_OPEN)
    (ha : b.half_open_attempts = 0) (hM : b.half_open_max_requests = M)
    (hM1 : 0 < M) :
    (∀ ts : List ℚ, ts.length = M →
        (applySuccs b ts).state = CircuitState.CLOSED ∧
        (applySuccs b ts).failures = 0 ∧
        (applySuccs b ts).half_open_attempts = 0) ∧
    (∀ ts : List ℚ, ts.length < M →
        (applySuccs b ts).state = CircuitState.HALF_OPEN ∧
        (applySuccs b ts).half_open_attempts = ts.length) ∧
    (∀ (b' : Breaker) (t : ℚ) (e : PyExc), b'.enabled = true →
        b'.state = CircuitState.HALF_OPEN →
        (call b' t (Except.error e : Except PyExc Unit)).breaker.state =
          CircuitState.OPEN) ∧
    (∀ b' : Breaker, (transition_to_closed b').failures = 0 ∧
        (transition_to_closed b').half_open_attempts = 0 ∧
        (transition_to_half_open b').half_open_attempts = 0) ∧
    (∀ (b' : Breaker) (now : ℚ) (op : Except PyExc Unit),
        b'.state ≠ CircuitState.CLOSED →
        (call b' now op).breaker.state = CircuitState.CLOSED →
        (call b' now op).breaker.failures = 0) := by
  refine ⟨?_, ?_, ?_, ?_, ?_⟩
  · intro ts hts
    have hne : ts ≠ [] := by
      intro hnil; rw [hnil] at hts; simp at hts; omega
    have hsplit : ts.dropLast ++ [ts.getLast hne] = ts :=
      List.dropLast_append_getLast hne
    have hlen : ts.dropLast.length = M - 1 := by
      rw [List.length_dropLast, hts]
    have hpre := applySuccs_halfopen ts.dropLast b hen hst (by omega)
    have hsx : applySuccs b ts =
        (call (applySuccs b ts.dropLast) (ts.getLast hne)
          (Except.ok () : Except PyExc Unit)).breaker := by
      conv_lhs => rw [← hsplit]
      simp [applySuccs, List.foldl_append]
    rw [hsx, call_halfopen_success _ _ () hpre.2.2.1 hpre.1,
      if_pos (by rw [hpre.2.1, hpre.2.2.2]; omega)]
    exact ⟨rfl, rfl, rfl⟩
  · intro ts hts
    have := applySuccs_halfopen ts b hen hst (by omega)
    exact ⟨this.1, by omega⟩
  · intro b' t e hen' hst'
    rw [call_halfopen_fail b' t e hen' hst']
  · intro b'
    exact ⟨rfl, rfl, rfl⟩
  · intro b' now op hpre hpost
    exact call_enter_closed_resets b' now op hpre hpost

/-- Witness for C4 at a concrete HALF_OPEN breaker with
`half_open_max_requests = 2`: one success keeps it HALF_OPEN, two
successes close it with a zero failure count, one failure reopens it. -/
theorem C4_half_open_window_witness :
    ((⟨"db", 1, 60, 2, true, CircuitState.HALF_OPEN, 1, some 0, 0⟩ :
        Breaker).state = CircuitState.HALF_OPEN) ∧
    ((applySuccs ⟨"db", 1, 60, 2, true, CircuitState.HALF_OPEN, 1, some 0, 0⟩
        [100]).state = CircuitState.HALF_OPEN) ∧
    ((applySuccs ⟨"db", 1, 60, 2, true, CircuitState.HALF_OPEN, 1, some 0, 0⟩
        [100, 101]).state = CircuitState.CLOSED) ∧
    ((applySuccs ⟨"db", 1, 60, 2, true, CircuitState.HALF_OPEN, 1, some 0, 0⟩
        [100, 101]).failures = 0) ∧
    ((call (⟨"db", 1, 60, 2, true, CircuitState.HALF_OPEN, 1, some 0, 0⟩ :
        Breaker) 100 (Except.error ⟨"ValueError", "boom"⟩ :
          Except PyExc Unit)).breaker.state = CircuitState.OPEN) := by
  have h := C4_half_open_window
    ⟨"db", 1, 60, 2, true, CircuitState.HALF_OPEN, 1, some 0, 0⟩ 2
    rfl rfl rfl rfl (by decide)
  refine ⟨rfl, (h.2.1 [100] (by decide)).1, (h.1 [100, 101] rfl).1,
    (h.1 [100, 101] rfl).2.1, h.2.2.1 _ 100 ⟨"ValueError", "boom"⟩ rfl rfl⟩

/-- C5: a breaker with `enabled = false` passes every call straight
through: the operation is invoked (once per call) and its result or
failure propagates unchanged, while every breaker field stays exactly as
it was over any number of calls; a breaker constructed with
`enabled = false` reports CLOSED from `get_state` forever. -/
theorem C5_disabled_passthrough {α : Type} (b : Breaker)
    (hen : b.enabled = false) :
    (∀ (now : ℚ) (op : Except PyExc α), call b now op = ⟨op, b, 1⟩) ∧
    (∀ calls : List (ℚ × Except PyExc α),
        runCalls b calls = (b, calls.length)) ∧
    (b.state = CircuitState.CLOSED →
        ∀ calls : List (ℚ × Except PyExc α),
          (runCalls b calls).1.get_state = CircuitState.CLOSED) ∧
    (∀ (name : String) (mf : Nat) (tmo : ℚ) (hor : Nat),
        (init name mf tmo hor false).get_state = CircuitState.CLOSED ∧
        (init name mf tmo hor false).enabled = false) := by
  have hone : ∀ (now : ℚ) (op : Except PyExc α), call b now op = ⟨op, b, 1⟩ := by
    intro now op
    simp [call, hen]
  have hrun : ∀ (calls : List (ℚ × Except PyExc α)) (n : Nat),
      calls.foldl
        (fun acc c =>
          let r := call acc.1 c.1 c.2
          (r.breaker, acc.2 + r.invocations)) (b, n) = (b, n + calls.length) := by
    intro calls
    induction calls with
    | nil => intro n; simp
    | cons c cs ih =>
      intro n
      simp only [List.foldl_cons, hone c.1 c.2, List.length_cons]
      rw [ih (n + 1)]
      congr 1
      omega
  refine ⟨hone, ?_, ?_, fun name mf tmo hor => ⟨rfl, rfl⟩⟩
  · intro calls
    have := hrun calls 0
    simpa [runCalls] using this
  · intro hst calls
    show (runCalls b calls).1.state = CircuitState.CLOSED
    have : runCalls b calls = (b, calls.length) := by
      have := hrun calls 0
      simpa [runCalls] using this
    rw [this]
    exact hst

/-- Witness for C5: a disabled breaker takes three failing calls, the
operation runs each time, the failure propagates, and the breaker is
unchanged — `get_state` still CLOSED. -/
theorem C5_disabled_passthrough_witness :
    (Breaker.init "db" 1 60 3 false).enabled = false ∧
    call (Breaker.init "db" 1 60 3 false) 0
        (Except.error ⟨"ValueError", "boom"⟩ : Except PyExc Unit) =
      ⟨Except.error ⟨"ValueError", "boom"⟩, Breaker.init "db" 1 60 3 false, 1⟩ ∧
    runCalls (Breaker.init "db" 1 60 3 false)
        ([(0, Except.error ⟨"ValueError", "boom"⟩),
          (1, Except.error ⟨"ValueError", "boom"⟩),
          (2, Except.error ⟨"ValueError", "boom"⟩)] :
          List (ℚ × Except PyExc Unit)) =
      (Breaker.init "db" 1 60 3 false, 3) := by
  have h := C5_disabled_passthrough (α := Unit)
    (Breaker.init "db" 1 60 3 false) rfl
  exact ⟨rfl, h.1 0 (Except.error ⟨"ValueError", "boom"⟩),
    h.2.1 [(0, Except.error ⟨"ValueError", "boom"⟩),
      (1, Except.error ⟨"ValueError", "boom"⟩),
      (2, Except.error ⟨"ValueError", "boom"⟩)]⟩

/-- Helper: running the retry loop from attempt `k` (with enough fuel)
against an operation failing with `errs n` on every attempt `n` makes
attempts `k, …, maxAttempts`, sleeps `wait` once between consecutive
attempts, and ends with the last attempt's failure. -/
theorem retryAux_all_fail {α : Type} (K : Nat) (wait : Nat → ℚ)
    (errs : Nat → PyExc) :
    ∀ (fuel k : Nat), 1 ≤ k → k ≤ K → K - k ≤ fuel →
      retryAux K wait (fun n => (Except.error (errs n) : Except PyExc α))
          fuel k =
        ⟨Except.error (errs K), K, (List.range' k (K - k)).map wait⟩ := by
  intro fuel
  induction fuel with
  | zero =>
    intro k h1 hk hf
    have hkK : k = K := by omega
    subst hkK
    simp [retryAux]
  | succ fuel ih =>
    intro k h1 hk hf
    by_cases hkK : k ≥ K
    · have hke : k = K := le_antisymm hk hkK
      subst hke
      simp [retryAux]
    · have hlt : k < K := lt_of_not_ge hkK
      rw [retryAux]
      simp only [hkK, if_false, ge_iff_le, not_le]
      rw [ih (k + 1) (by omega) (by omega) (by omega)]
      have hKk : K - k = (K - (k + 1)) + 1 := by omega
      rw [hKk, List.range'_succ k (K - (k + 1)) 1]
      rfl

/-- Helper: an operation failing on every attempt, wrapped by the retry
loop with `stop_after_attempt K` and `reraise=True`, is invoked exactly
`K` times, re-raises attempt `K`'s failure, and sleeps exactly between
consecutive attempts (attempts `1, …, K - 1`). -/
theorem retryCall_all_fail {α : Type} (K : Nat) (wait : Nat → ℚ)
    (errs : Nat → PyExc) (hK : 1 ≤ K) :
    retryCall K wait (fun n => (Except.error (errs n) : Except PyExc α)) =
      ⟨Except.error (errs K), K, (List.range' 1 (K - 1)).map wait⟩ :=
  retryAux_all_fail K wait errs K 1 le_rfl hK (by omega)

/-- C7: an operation failing on every attempt, wrapped with
`max_attempts = K ≥ 1`, is invoked exactly `K` times and the failure
raised by the `K`th attempt is propagated unchanged; with
`max_attempts = 1` there is a single attempt, no sleep, and the failure
propagates immediately. -/
theorem C7_retry_exhaustion {α : Type} (K : Nat) (wait : Nat → ℚ)
    (errs : Nat → PyExc) (hK : 1 ≤ K) :
    (retryCall K wait
        (fun n => (Except.error (errs n) : Except PyExc α))).outcome =
      Except.error (errs K) ∧
    (retryCall K wait
        (fun n => (Except.error (errs n) : Except PyExc α))).attempts = K ∧
    (K = 1 → retryCall K wait
        (fun n => (Except.error (errs n) : Except PyExc α)) =
      ⟨Except.error (errs 1), 1, []⟩) := by
  rw [retryCall_all_fail K wait errs hK]
  refine ⟨rfl, rfl, ?_⟩
  intro h1
  subst h1
  rfl

/-- Witness for C7 at `K = 3`: the operation raising `boom n` on attempt
`n` is invoked 3 times and `boom 3` is re-raised. -/
theorem C7_retry_exhaustion_witness :
    1 ≤ 3 ∧
    (retryCall 3 (fun _ => 1)
        (fun n => (Except.error ⟨"ValueError", toString n⟩ :
          Except PyExc Unit))).outcome = Except.error ⟨"ValueError", "3"⟩ ∧
    (retryCall 3 (fun _ => 1)
        (fun n => (Except.error ⟨"ValueError", toString n⟩ :
          Except PyExc Unit))).attempts = 3 := by
  have h := C7_retry_exhaustion (α := Unit) 3 (fun _ => 1)
    (fun n => ⟨"ValueError", toString n⟩) (by decide)
  exact ⟨by decide, h.1, h.2.1⟩

/-- C6 counterexample: with the source's own defaults
(`initial_delay = 1`, `max_delay = 60`, `multiplier = 2`) and
`max_attempts = 2`, the single delay scheduled between attempt 1 and
attempt 2 is `max(max(0, 1), min(2 * 2^0, 60)) = 2`, whereas the
spec's formula `min(initial_delay * multiplier^(1-1), max_delay)`
gives 1 — the claimed formula does not match the code. -/
theorem C6_backoff_counterexample :
    (with_exponential_backoff 2 1 60 2
        (fun _ => (Except.error ⟨"ValueError", "boom"⟩ :
          Except PyExc Unit))).delays = [2] ∧
    specBackoffDelay 1 60 2 1 = 1 ∧
    ¬ (with_exponential_backoff 2 1 60 2
        (fun _ => (Except.error ⟨"ValueError", "boom"⟩ :
          Except PyExc Unit))).delays = [specBackoffDelay 1 60 2 1] := by
  have h1 : (with_exponential_backoff 2 1 60 2
      (fun _ => (Except.error ⟨"ValueError", "boom"⟩ :
        Except PyExc Unit))).delays = [2] := by
    rw [with_exponential_backoff,
      retryCall_all_fail 2 _ (fun _ => ⟨"ValueError", "boom"⟩) (by decide)]
    show (List.range' 1 1).map
      (with_exponential_backoff_wait 1 60 2) = [2]
    simp [with_exponential_backoff_wait, wait_exponential_delay]
    norm_num
  have h2 : specBackoffDelay 1 60 2 1 = 1 := by
    simp [specBackoffDelay]
  refine ⟨h1, h2, ?_⟩
  rw [h1, h2]
  intro hcontra
  simp only [List.cons.injEq, and_true] at hcontra
  norm_num at hcontra

/-- C6 amended: for every `max_attempts = K ≥ 1` and an operation
failing on every attempt, the wrapper built by
`RetryPolicy.with_exponential_backoff(K, initial_delay, max_delay,
multiplier)` schedules exactly `K - 1` delays — only between attempts,
never before the first or after the last — and the delay between
attempt `k` and attempt `k + 1` equals
`max(max(0, initial_delay), min(multiplier * 2^(k-1), max_delay))`
(tenacity's `wait_exponential` with `min=initial_delay`,
`max=max_delay` and the default `exp_base = 2`), not the spec's
`min(initial_delay * multiplier^(k-1), max_delay)`. -/
theorem C6_backoff_delays (K : Nat) (initial_delay max_delay multiplier : ℚ)
    (errs : Nat → PyExc) (hK : 1 ≤ K) :
    (with_exponential_backoff K initial_delay max_delay multiplier
        (fun n => (Except.error (errs n) : Except PyExc Unit))).delays =
      (List.range' 1 (K - 1)).map
        (fun k => max (max 0 initial_delay)
          (min (multiplier * 2 ^ (k - 1)) max_delay)) ∧
    (with_exponential_backoff K initial_delay max_delay multiplier
        (fun n => (Except.error (errs n) : Except PyExc Unit))).delays.length =
      K - 1 := by
  have h : (with_exponential_backoff K initial_delay max_delay multiplier
      (fun n => (Except.error (errs n) : Except PyExc Unit))).delays =
      (List.range' 1 (K - 1)).map
        (with_exponential_backoff_wait initial_delay max_delay multiplier) := by
    rw [with_exponential_backoff, retryCall_all_fail K _ errs hK]
  refine ⟨h, ?_⟩
  rw [h]
  simp

/-- Witness for C6 (amended) at `K = 3`, defaults
`initial_delay = 1`, `max_delay = 60`, `multiplier = 2`: two delays are
scheduled, `[2, 4]`. -/
theorem C6_backoff_delays_witness :
    1 ≤ 3 ∧
    (with_exponential_backoff 3 1 60 2
        (fun _ => (Except.error ⟨"ValueError", "boom"⟩ :
          Except PyExc Unit))).delays =
      (List.range' 1 2).map
        (fun k => max (max 0 (1 : ℚ)) (min (2 * 2 ^ (k - 1)) 60)) := by
  exact ⟨by decide,
    (C6_backoff_delays 3 1 60 2 (fun _ => ⟨"ValueError", "boom"⟩)
      (by decide)).1⟩

/-- Helper: folding the dict-style lookup over a context either finds
the key's latest binding there (whatever the seed `acc`) or returns the
seed. -/
theorem lookupField_step : ∀ (l : LogCtx) (k : String) (acc : Option String),
    l.foldl (fun a p => if p.1 = k then some p.2 else a) acc =
      match lookupField l k with
      | some v => some v
      | none => acc
  | [], _, _ => rfl
  | p :: l, k, acc => by
    have h1 : (p :: l).foldl (fun a q => if q.1 = k then some q.2 else a) acc
        = l.foldl (fun a q => if q.1 = k then some q.2 else a)
            (if p.1 = k then some p.2 else acc) := rfl
    have h2 : lookupField (p :: l) k
        = l.foldl (fun a q => if q.1 = k then some q.2 else a)
            (if p.1 = k then some p.2 else none) := rfl
    rw [h1, lookupField_step l k _, h2, lookupField_step l k _]
    cases hl : lookupField l k with
    | some v => rfl
    | none => by_cases hp : p.1 = k <;> simp [hp]

/-- Helper: looking a key up in the concatenation of two contexts finds
its latest binding in the right context first, falling back to the left
one — later bindings win, earlier ones persist. -/
theorem lookupField_append (l1 l2 : LogCtx) (k : String) :
    lookupField (l1 ++ l2) k =
      match lookupField l2 k with
      | some v => some v
      | none => lookupField l1 k := by
  show (l1 ++ l2).foldl _ none = _
  rw [List.foldl_append, lookupField_step l2 k]
  rfl

/-- C8: for any base logger and nonempty correlation id `X` and
component `B`, the derived logger
`with_correlation(X, A).with_component(B)` carries `correlation_id = X`
and `component = B` — the later-bound component overrides the earlier
`A` while the correlation id persists — both in its attributes and in
every record it emits (whose per-call fields do not rebind those keys);
derivation only appends bindings, leaving the base context in place
unchanged (immutable derivation). -/
theorem C8_logger_field_inheritance (base : LogCtx) (X A B : String)
    (hX : X ≠ "") (hB : B ≠ "") :
    lookupField ((Logger.with_correlation base X A).with_component B).logger
        "correlation_id" = some X ∧
    lookupField ((Logger.with_correlation base X A).with_component B).logger
        "component" = some B ∧
    ((Logger.with_correlation base X A).with_component B).correlation_id = X ∧
    ((Logger.with_correlation base X A).with_component B).component = B ∧
    (∀ kw : LogCtx, lookupField kw "correlation_id" = none →
        lookupField
          (emitRecord ((Logger.with_correlation base X A).with_component B) kw)
          "correlation_id" = some X) ∧
    (∀ kw : LogCtx, lookupField kw "component" = none →
        lookupField
          (emitRecord ((Logger.with_correlation base X A).with_component B) kw)
          "component" = some B) ∧
    ((Logger.with_correlation base X A).logger).take base.length = base ∧
    (((Logger.with_correlation base X A).with_component B).logger).take
        base.length = base := by
  have hmidlog : (Logger.with_correlation base X A).logger =
      base ++ ([("correlation_id", X)] ++
        (if A ≠ "" then [("component", A)] else [])) := by
    simp only [Logger.with_correlation, ContextLogger.init, if_pos hX]
  have hdlog : ((Logger.with_correlation base X A).with_component B).logger =
      (Logger.with_correlation base X A).logger ++
        ([("correlation_id", X)] ++ [("component", B)]) := by
    simp only [ContextLogger.with_component, Logger.with_correlation,
      ContextLogger.init, if_pos hX, if_pos hB]
  have hcorr : lookupField
      ((Logger.with_correlation base X A).with_component B).logger
      "correlation_id" = some X := by
    rw [hdlog, lookupField_append]
    rfl
  have hcomp : lookupField
      ((Logger.with_correlation base X A).with_component B).logger
      "component" = some B := by
    rw [hdlog, lookupField_append]
    rfl
  refine ⟨hcorr, hcomp, rfl, rfl, ?_, ?_, ?_, ?_⟩
  · intro kw hkw
    rw [emitRecord, lookupField_append, hkw, hcorr]
  · intro kw hkw
    rw [emitRecord, lookupField_append, hkw, hcomp]
  · rw [hmidlog]
    simp
  · rw [hdlog, hmidlog, List.append_assoc]
    simp

/-- Witness for C8 at base context `[("service", "svc")]`,
`X = "X"`, `A = "A"`, `B = "B"`. -/
theorem C8_logger_field_inheritance_witness :
    ("X" : String) ≠ "" ∧
    lookupField
      ((Logger.with_correlation [("service", "svc")] "X" "A").with_component
        "B").logger "correlation_id" = some "X" ∧
    lookupField
      ((Logger.with_correlation [("service", "svc")] "X" "A").with_component
        "B").logger "component" = some "B" := by
  have h := C8_logger_field_inheritance [("service", "svc")] "X" "A" "B"
    (by decide) (by decide)
  exact ⟨by decide, h.1, h.2.1⟩

/-- C9 counterexample: the breaker raises its OPEN rejection as the base
`Exception` type, and a wrapped operation's own failure of the base
`Exception` type passes through `call` unchanged, so the two share the
same error type — no discriminator on the error kind/type can separate
the rejection from every possible wrapped failure. -/
theorem C9_no_type_discriminator :
    (call (Breaker.init "db" 1 60 3 true) 0
        (Except.error ⟨"Exception", "boom"⟩ : Except PyExc Unit)).outcome =
      Except.error ⟨"Exception", "boom"⟩ ∧
    (call (Breaker.init "db" 1 60 3 true) 0
        (Except.error ⟨"Exception", "boom"⟩ :
          Except PyExc Unit)).breaker.state = CircuitState.OPEN ∧
    (call (call (Breaker.init "db" 1 60 3 true) 0
        (Except.error ⟨"Exception", "boom"⟩ : Except PyExc Unit)).breaker
        30 (Except.ok () : Except PyExc Unit)).outcome =
      Except.error (rejectExc "db") ∧
    (rejectExc "db").excType = (PyExc.mk "Exception" "boom").excType ∧
    ¬ ∃ d : String → Bool,
        d (rejectExc "db").excType ≠ d (PyExc.mk "Exception" "boom").excType := by
  have hb : (call (Breaker.init "db" 1 60 3 true) 0
      (Except.error ⟨"Exception", "boom"⟩ : Except PyExc Unit)).breaker =
      ⟨"db", 1, 60, 3, true, CircuitState.OPEN, 1, some 0, 0⟩ := rfl
  refine ⟨rfl, rfl, ?_, rfl, ?_⟩
  · rw [call_open_reject _ 0 30 _ (by rw [hb]) (by rw [hb]) (by rw [hb])
      (by rw [hb]; norm_num)]
    rw [hb]
  · rintro ⟨d, hd⟩
    exact hd rfl

/-- C9 amended: a rejection by an enabled OPEN breaker (timeout not
elapsed) is the base `Exception` type carrying the message
`Circuit breaker '<name>' is OPEN`, which identifies the breaker by
name; wrapped failures pass through `call` unchanged, so callers can
separate a rejection from a wrapped failure only when the exception
value differs — any wrapped failure with a different message is
distinguishable by message text, while no type-level discriminator
exists. -/
theorem C9_rejection_distinguishable {α : Type} (b : Breaker) (t now : ℚ)
    (hen : b.enabled = true) (hst : b.state = CircuitState.OPEN)
    (hlf : b.last_fail_time = some t) (hel : now - t ≤ b.timeout) :
    (∀ op : Except PyExc α,
        (call b now op).outcome = Except.error (rejectExc b.name)) ∧
    (rejectExc b.name).excType = "Exception" ∧
    (rejectExc b.name).msg = "Circuit breaker '" ++ b.name ++ "' is OPEN" ∧
    (∀ (b' : Breaker) (now' : ℚ) (e : PyExc), b'.enabled = true →
        b'.state = CircuitState.CLOSED →
        (call b' now' (Except.error e : Except PyExc α)).outcome =
          Except.error e) ∧
    (∀ e : PyExc, e.msg ≠ (rejectExc b.name).msg → e ≠ rejectExc b.name) := by
  refine ⟨?_, rfl, rfl, ?_, ?_⟩
  · intro op
    rw [call_open_reject b t now op hen hst hlf hel]
  · intro b' now' e hen' hst'
    rw [call_closed_fail b' now' e hen' hst']
  · intro e hm he
    exact hm (by rw [he])

/-- Witness for C9 (amended) at a concrete OPEN breaker named `db`:
the rejection is `Exception` with message
`Circuit breaker 'db' is OPEN`. -/
theorem C9_rejection_distinguishable_witness :
    ((⟨"db", 1, 60, 3, true, CircuitState.OPEN, 1, some 0, 0⟩ :
        Breaker).enabled = true) ∧
    (call (⟨"db", 1, 60, 3, true, CircuitState.OPEN, 1, some 0, 0⟩ : Breaker)
        30 (Except.ok () : Except PyExc Unit)).outcome =
      Except.error (rejectExc "db") ∧
    (rejectExc "db").msg = "Circuit breaker 'db' is OPEN" := by
  have h := C9_rejection_distinguishable (α := Unit)
    (⟨"db", 1, 60, 3, true, CircuitState.OPEN, 1, some 0, 0⟩ : Breaker)
    0 30 rfl rfl rfl (by norm_num)
  exact ⟨rfl, h.1 (Except.ok ()), h.2.2.1⟩

/-- C10: the source `CircuitBreaker` takes no lock, and at the
granularity of `_on_failure`'s own statements two concurrent failing
calls at the `max_failures` boundary can both evaluate the
`CLOSED ∧ failures ≥ max_failures` condition before either assigns
`state = OPEN`, so both execute `_transition_to_open` — the CLOSED→OPEN
transition (and its state-gauge publication) fires twice under the
interleaved schedule, whereas under the mutually-exclusive (serialized)
schedule it fires exactly once, as the claim requires. -/
theorem C10_unsynchronized_double_transition :
    (runSched 1 [true, false, true, false, true, false]
        (raceInit, threadInit, threadInit)).1.fires = 2 ∧
    (runSched 1 [true, true, true, false, false, false]
        (raceInit, threadInit, threadInit)).1.fires = 1 ∧
    (runSched 1 [true, false, true, false, true, false]
        (raceInit, threadInit, threadInit)).1.state = CircuitState.OPEN ∧
    (runSched 1 [true, true, true, false, false, false]
        (raceInit, threadInit, threadInit)).1.state = CircuitState.OPEN := by
  decide

end AiSkills
